import Mathlib

/-
Shallow embedding of the RustSessions session store (src/src/lib.rs and
src/src/rocket.rs).

Modelling conventions:
  * chrono DateTime Utc is an integer timestamp; chronological comparison
    is integer comparison.  chrono Duration is an integer; chrono has
    signed durations, so Duration is Int as well.
  * chrono MIN_DATETIME, the least representable instant, is a fixed
    negative constant; every clock reading in the claims is far above it.
  * Every function that reads the clock in Rust (Utc::now) takes the
    current time as an explicit argument.
  * Box dyn Attribute (a type-erased value usable with Any downcasts) is a
    closed universe AttrVal of tagged values with a runtime type tag
    AttrTy; downcast succeeds exactly when the tag matches, mirroring
    attr.is followed by attr.downcast_ref in get_attribute.
  * HashMap String v is an association list with insert-overwrites
    semantics; retain is List.filter.
  * Arc Mutex SessionInner (the SessionData handle) is an address into a
    heap of cells, Heap := Nat -> Option SessionCell; a cell carries a
    poisoned flag for its mutex.  Cloning a handle yields the same
    address, so mutation through one clone is seen by all clones.
  * RwLock poisoning of the collection lock is a flag on LocalSessionMap;
    the Rust code panics when that lock is poisoned, modelled as
    Except.error Panic.panicked returned to the immediate caller.
-/

namespace RustSessions

/-- Timestamps modelling chrono DateTime Utc. -/
abbrev DateTime := Int

/-- Durations modelling chrono Duration (signed). -/
abbrev Duration := Int

/-- Models chrono MIN_DATETIME, the least representable instant, used by the
code as the sentinel meaning the session never expires. -/
def MIN_DATETIME : DateTime := -8334632851200

/-- Runtime type tags for attribute values: models std::any::TypeId over the
closed universe of attribute types used in this development. -/
inductive AttrTy where
  | tString
  | tU32
  | tBool
  | tI64
deriving DecidableEq

/-- Interpretation of a type tag as a Lean type. -/
def AttrTy.interp : AttrTy → Type
  | .tString => String
  | .tU32 => Nat
  | .tBool => Bool
  | .tI64 => Int

/-- A type-erased attribute value: models Box dyn Attribute. -/
inductive AttrVal where
  | vString (s : String)
  | vU32 (n : Nat)
  | vBool (b : Bool)
  | vI64 (i : Int)
deriving DecidableEq

/-- The runtime type of a stored value: models Any::is on the boxed value. -/
def AttrVal.typeId : AttrVal → AttrTy
  | .vString _ => .tString
  | .vU32 _ => .tU32
  | .vBool _ => .tBool
  | .vI64 _ => .tI64

/-- Models Any::downcast_ref: a typed view of the value when the type
matches, none otherwise. -/
def AttrVal.downcast_ref : (a : AttrVal) → (T : AttrTy) → Option (AttrTy.interp T)
  | .vString s, .tString => some s
  | .vString _, .tU32 => none
  | .vString _, .tBool => none
  | .vString _, .tI64 => none
  | .vU32 n, .tU32 => some n
  | .vU32 _, .tString => none
  | .vU32 _, .tBool => none
  | .vU32 _, .tI64 => none
  | .vBool b, .tBool => some b
  | .vBool _, .tString => none
  | .vBool _, .tU32 => none
  | .vBool _, .tI64 => none
  | .vI64 i, .tI64 => some i
  | .vI64 _, .tString => none
  | .vI64 _, .tU32 => none
  | .vI64 _, .tBool => none

/-- Boxing a typed value into the erased universe: models Box::new at a
concrete attribute type. -/
def AttrVal.mk : (T : AttrTy) → AttrTy.interp T → AttrVal
  | .tString, s => .vString s
  | .tU32, n => .vU32 n
  | .tBool, b => .vBool b
  | .tI64, i => .vI64 i

/-- Association-list model of HashMap String AttrVal: lookup. -/
def attrLookup (m : List (String × AttrVal)) (key : String) : Option AttrVal :=
  (m.find? (fun p => p.1 == key)).map (fun p => p.2)

/-- Association-list model of HashMap String AttrVal: insert overwrites an
existing binding for the key. -/
def attrInsert (m : List (String × AttrVal)) (key : String) (v : AttrVal) :
    List (String × AttrVal) :=
  (key, v) :: m.filter (fun p => !(p.1 == key))

/-- Association-list model of HashMap String AttrVal: remove. -/
def attrRemove (m : List (String × AttrVal)) (key : String) :
    List (String × AttrVal) :=
  m.filter (fun p => !(p.1 == key))

/-- Models the SessionConfig trait: the expiration policy.  The id_gen
method is never called by the modelled core operations and is omitted. -/
structure SessionConfig where
  expiration_duration : Option Duration
deriving DecidableEq

/-- Models the struct SessionInner of src/src/lib.rs: the session record. -/
structure SessionInner where
  id : String
  created : DateTime
  last_accessed : DateTime
  expires : DateTime
  attributes : List (String × AttrVal)
  _config : SessionConfig
deriving DecidableEq

/-- Models SessionInner::new: created and last_accessed are the construction
time; expires is construction time plus the configured duration, or the
MIN_DATETIME sentinel when the config has no duration. -/
def SessionInner.new (id : String) (config : SessionConfig) (creation_time : DateTime) :
    SessionInner :=
  { id := id
    created := creation_time
    last_accessed := creation_time
    expires :=
      match config.expiration_duration with
      | some duration => creation_time + duration
      | none => MIN_DATETIME
    attributes := []
    _config := config }

/-- Models SessionInner::is_expired: compares expires against the current
time with no sentinel check, returning true when expires is at or before
the current time. -/
def SessionInner.is_expired (s : SessionInner) (current_time : DateTime) : Bool :=
  if s.expires ≤ current_time then true else false

/-- Models SessionInner::update_time: last_accessed becomes the current
time; when the config has a duration, expires becomes last_accessed plus
that duration, otherwise expires is untouched. -/
def SessionInner.update_time (s : SessionInner) (now : DateTime) : SessionInner :=
  let s1 := { s with last_accessed := now }
  match s1._config.expiration_duration with
  | some duration => { s1 with expires := s1.last_accessed + duration }
  | none => s1

/-- Models SessionInner::invalidate: expires is set to created. -/
def SessionInner.invalidate (s : SessionInner) : SessionInner :=
  { s with expires := s.created }

/-- Models SessionInner::insert: stores a boxed attribute under the key,
overwriting an existing binding. -/
def SessionInner.insert (s : SessionInner) (key : String) (attr : AttrVal) :
    SessionInner :=
  { s with attributes := attrInsert s.attributes key attr }

/-- Models SessionInner::remove: removes the binding and returns it. -/
def SessionInner.removeAttr (s : SessionInner) (key : String) :
    Option AttrVal × SessionInner :=
  (attrLookup s.attributes key, { s with attributes := attrRemove s.attributes key })

/-- Models SessionInner::get_attribute: looks the key up, then checks the
runtime type of the stored value against the requested tag before
downcasting; a missing key and a type mismatch both yield none. -/
def SessionInner.get_attribute (s : SessionInner) (T : AttrTy) (key : String) :
    Option (AttrTy.interp T) :=
  match attrLookup s.attributes key with
  | some data =>
    if data.typeId = T then data.downcast_ref T else none
  | none => none

/-- Result of an operation that can panic (the Rust code panics when the
collection lock is poisoned). -/
inductive Panic where
  | panicked
deriving DecidableEq

/-- A heap cell behind one Arc Mutex SessionInner handle: the record plus
the poison state of its mutex. -/
structure SessionCell where
  poisoned : Bool
  inner : SessionInner
deriving DecidableEq

/-- A handle to a session record: models Arc Mutex SessionInner as an
address; cloning the Arc clones the address, not the cell. -/
abbrev SessionData := Nat

/-- The heap of session cells addressed by SessionData handles. -/
abbrev Heap := Nat → Option SessionCell

/-- Models data.lock() on a handle: some record when the cell exists and
its mutex is not poisoned, none on a poisoned mutex (the Err arm). -/
def heapLock (h : Heap) (p : SessionData) : Option SessionInner :=
  match h p with
  | some cell => if cell.poisoned then none else some cell.inner
  | none => none

/-- Heap update at one address. -/
def heapSet (h : Heap) (p : SessionData) (c : SessionCell) : Heap :=
  fun q => if q = p then some c else h q

/-- Models the struct LocalSessionMap: the id-to-handle table behind an
RwLock, with the poison state of that collection lock. -/
structure LocalSessionMap where
  mapPoisoned : Bool
  sessions : List (String × SessionData)
deriving DecidableEq

/-- Association-list lookup for the id-to-handle table. -/
def lookupKV (l : List (String × SessionData)) (id : String) : Option SessionData :=
  (l.find? (fun kv => kv.1 == id)).map (fun kv => kv.2)

/-- Models LocalSessionMap::list: panics when the collection lock is
poisoned, otherwise passes all handles to the visitor (modelled as
returning them). -/
def LocalSessionMap.list (m : LocalSessionMap) :
    Except Panic (List SessionData) :=
  if m.mapPoisoned then Except.error Panic.panicked
  else Except.ok (m.sessions.map (fun kv => kv.2))

/-- Models LocalSessionMap::get: panics when the collection lock is
poisoned, otherwise returns a clone of the stored handle (the same
address) when the id is present, with no expiration check. -/
def LocalSessionMap.get (m : LocalSessionMap) (id : String) :
    Except Panic (Option SessionData) :=
  if m.mapPoisoned then Except.error Panic.panicked
  else
    match lookupKV m.sessions id with
    | some data => Except.ok (some data)
    | none => Except.ok none

/-- Models LocalSessionMap::insert: panics when the collection lock is
poisoned, otherwise stores or replaces the handle under the id. -/
def LocalSessionMap.insert (m : LocalSessionMap) (id : String) (session : SessionData) :
    Except Panic LocalSessionMap :=
  if m.mapPoisoned then Except.error Panic.panicked
  else
    Except.ok
      { m with sessions := (id, session) :: m.sessions.filter (fun kv => !(kv.1 == id)) }

/-- Models LocalSessionMap::remove: panics when the collection lock is
poisoned, otherwise removes the binding and reports whether one existed. -/
def LocalSessionMap.remove (m : LocalSessionMap) (id : String) :
    Except Panic (Bool × LocalSessionMap) :=
  if m.mapPoisoned then Except.error Panic.panicked
  else
    match lookupKV m.sessions id with
    | some _ =>
      Except.ok (true, { m with sessions := m.sessions.filter (fun kv => !(kv.1 == id)) })
    | none => Except.ok (false, m)

/-- The retain closure of LocalSessionMap::remove_expired: an entry is kept
exactly when its record lock succeeds and the record is expired (the Rust
closure returns true, incrementing removed, in exactly that case; a
poisoned record lock returns false). -/
def remove_expired_keep (h : Heap) (now : DateTime) (kv : String × SessionData) : Bool :=
  match heapLock h kv.2 with
  | some inner => if inner.is_expired now then true else false
  | none => false

/-- Models LocalSessionMap::remove_expired: panics when the collection lock
is poisoned; otherwise retains exactly the entries where the closure
returned true and returns the removed counter, which was incremented once
per retained (expired) entry. -/
def LocalSessionMap.remove_expired (m : LocalSessionMap) (h : Heap) (now : DateTime) :
    Except Panic (Nat × LocalSessionMap) :=
  if m.mapPoisoned then Except.error Panic.panicked
  else
    Except.ok
      ((m.sessions.filter (remove_expired_keep h now)).length,
        { m with sessions := m.sessions.filter (remove_expired_keep h now) })

/-- The retain loop of LocalSessionMap::clear over the heap: each entry has
its record lock taken; on success the record is invalidated in place (all
clones of the handle see it), on a poisoned record lock the code hits
todo and panics; every entry is dropped from the table afterwards.  A
dangling address cannot arise from the Rust code and is treated as a
panic as well. -/
def clearLoop : List (String × SessionData) → Heap → Except Panic Heap
  | [], h => Except.ok h
  | kv :: rest, h =>
    match h kv.2 with
    | some cell =>
      if cell.poisoned then Except.error Panic.panicked
      else clearLoop rest (heapSet h kv.2 { cell with inner := cell.inner.invalidate })
    | none => Except.error Panic.panicked

/-- Models LocalSessionMap::clear: panics when the collection lock is
poisoned; otherwise invalidates every record through its handle and
leaves the table empty. -/
def LocalSessionMap.clear (m : LocalSessionMap) (h : Heap) :
    Except Panic (LocalSessionMap × Heap) :=
  if m.mapPoisoned then Except.error Panic.panicked
  else
    match clearLoop m.sessions h with
    | Except.ok h2 => Except.ok ({ m with sessions := [] }, h2)
    | Except.error e => Except.error e

/-- Models SessionStore::get over the LocalSessionMap backend (the only
backend in the repository).  The wrapper type T is built with From from a
clone of the handle; the model returns the handle itself.  The backend
lookup is followed by the record lock: on success an expired record
yields none, a live one yields the handle; the Err arm of the record lock
yields none. -/
def SessionStore.get (m : LocalSessionMap) (h : Heap) (id : String) (now : DateTime) :
    Except Panic (Option SessionData) :=
  match LocalSessionMap.get m id with
  | Except.error e => Except.error e
  | Except.ok none => Except.ok none
  | Except.ok (some data) =>
    match heapLock h data with
    | some inner =>
      if inner.is_expired now then Except.ok none
      else Except.ok (some data)
    | none => Except.ok none

/-- Models CookieSessionConfig of src/src/rocket.rs: the cookie name and
the configured expiration duration; the id generator is omitted as in
SessionConfig. -/
structure CookieSessionConfig where
  cookie_name : String
  expiration : Duration
deriving DecidableEq

/-- Models CookieSessionConfig::expiration_duration: a zero duration means
no expiration (none), anything else is passed through. -/
def CookieSessionConfig.expiration_duration (c : CookieSessionConfig) :
    Option Duration :=
  if c.expiration = 0 then none else some c.expiration

/-- The SessionConfig view of a CookieSessionConfig, as used by
SessionInner::new through the trait object. -/
def CookieSessionConfig.asSessionConfig (c : CookieSessionConfig) : SessionConfig :=
  { expiration_duration := c.expiration_duration }

/-- A record cell holds an invalidated, readable record: the cell exists,
its mutex is healthy, and expires equals created (the defining effect of
SessionInner::invalidate). -/
def invalidatedAt (h : Heap) (p : SessionData) : Prop :=
  ∃ cell, h p = some cell ∧ cell.poisoned = false ∧
    cell.inner.expires = cell.inner.created

/-- Fixture: a config with a fifty-tick expiration duration. -/
def cfg50 : SessionConfig := { expiration_duration := some 50 }

/-- Fixture: a record created at time 0, so its expires is 50 and it is
expired at time 100. -/
def innerA : SessionInner := SessionInner.new "a" cfg50 0

/-- Fixture: a record created at time 150, so its expires is 200 and it is
live at time 100. -/
def innerB : SessionInner := SessionInner.new "b" cfg50 150

/-- Fixture: a heap with the expired record at address 0 and the live one
at address 1, both with healthy mutexes. -/
def demoHeap : Heap :=
  fun q =>
    if q = 0 then some { poisoned := false, inner := innerA }
    else if q = 1 then some { poisoned := false, inner := innerB }
    else none

/-- Fixture: a healthy map holding ids a and b at addresses 0 and 1. -/
def demoMap : LocalSessionMap :=
  { mapPoisoned := false, sessions := [("a", 0), ("b", 1)] }

/-- Fixture: a heap whose only cell, at address 0, has a poisoned mutex. -/
def poisonHeap : Heap :=
  fun q => if q = 0 then some { poisoned := true, inner := innerA } else none

/-- Fixture: a healthy map holding id a at the poisoned address 0. -/
def poisonRecMap : LocalSessionMap :=
  { mapPoisoned := false, sessions := [("a", 0)] }

/-- Fixture: a map whose collection lock is poisoned. -/
def poisonMap : LocalSessionMap :=
  { mapPoisoned := true, sessions := [] }

/-- Fixture: a session for the update_time claim, created at time 3 under
the fifty-tick config. -/
def sTouch : SessionInner := SessionInner.new "w" cfg50 3

/-- Fixture: a session for the update_time claim, created at time 3 under
a config with no expiration duration. -/
def sTouchNever : SessionInner :=
  SessionInner.new "w" { expiration_duration := none } 3

/-- Boxing a typed value keeps its runtime type tag. -/
theorem AttrVal.typeId_mk (T : AttrTy) (v : AttrTy.interp T) :
    (AttrVal.mk T v).typeId = T := by
  cases T <;> rfl

/-- Downcasting a boxed value at its own type recovers the value. -/
theorem AttrVal.downcast_ref_mk (T : AttrTy) (v : AttrTy.interp T) :
    (AttrVal.mk T v).downcast_ref T = some v := by
  cases T <;> rfl

/-- C2: the claim says is_expired holds iff expires is not the sentinel and
the clock is at or past expires, so a session configured with no
expiration duration is never reported expired by time alone.  The code
refutes this: a session built under a none-duration config stores the
MIN_DATETIME sentinel in expires, and is_expired compares expires against
the clock with no sentinel check, so the sentinel session is reported
expired at every clock reading. -/
theorem C2_never_config_reported_expired :
    (SessionInner.new "abc" { expiration_duration := none } 0).expires = MIN_DATETIME
    ∧ (SessionInner.new "abc" { expiration_duration := none } 0).is_expired 5 = true :=
  ⟨rfl, rfl⟩

/-- C8: invalidate sets expires to created, and immediately afterwards
is_expired returns true (at any clock reading at or past creation),
regardless of the configured expiration duration. -/
theorem C8_invalidate_forces_expiry (s : SessionInner) (now : DateTime)
    (h : s.created ≤ now) :
    s.invalidate.expires = s.created ∧ s.invalidate.is_expired now = true := by
  refine ⟨rfl, ?_⟩
  simp [SessionInner.invalidate, SessionInner.is_expired, h]

/-- C8 witness: a concrete session under a none-duration config, accessed
at its creation time, is expired right after invalidate. -/
theorem C8_invalidate_witness :
    (SessionInner.new "abc" { expiration_duration := none } 3).invalidate.expires = 3
    ∧ (SessionInner.new "abc" { expiration_duration := none } 3).invalidate.is_expired 3 = true :=
  C8_invalidate_forces_expiry
    (SessionInner.new "abc" { expiration_duration := none } 3) 3 (by decide)

/-- C9: new sets created and last_accessed to the construction timestamp;
expires is the MIN_DATETIME sentinel when the config has no duration (in
particular under a CookieSessionConfig with zero duration), and otherwise
created plus the duration, strictly greater than created for every
positive duration. -/
theorem C9_new_fields (id : String) (config : SessionConfig) (now : DateTime) :
    (SessionInner.new id config now).created = now
    ∧ (SessionInner.new id config now).last_accessed = now
    ∧ (config.expiration_duration = none →
        (SessionInner.new id config now).expires = MIN_DATETIME)
    ∧ (∀ c : CookieSessionConfig, c.expiration = 0 →
        (SessionInner.new id c.asSessionConfig now).expires = MIN_DATETIME)
    ∧ (∀ d : Duration, config.expiration_duration = some d →
        (SessionInner.new id config now).expires = now + d
        ∧ (0 < d →
            (SessionInner.new id config now).created
              < (SessionInner.new id config now).expires)) := by
  refine ⟨rfl, rfl, ?_, ?_, ?_⟩
  · intro h
    simp [SessionInner.new, h]
  · intro c hc
    simp [SessionInner.new, CookieSessionConfig.asSessionConfig,
      CookieSessionConfig.expiration_duration, hc]
  · intro d hd
    constructor
    · simp [SessionInner.new, hd]
    · intro hdpos
      simp [SessionInner.new, hd]
      exact hdpos

/-- C9 witness: concrete instances of every conjunct, under a seven-tick
config at time 100 and under a zero-duration cookie config. -/
theorem C9_new_witness :
    (SessionInner.new "abc" { expiration_duration := some 7 } 100).created = 100
    ∧ (SessionInner.new "abc" { expiration_duration := some 7 } 100).expires = 100 + 7
    ∧ (SessionInner.new "abc"
        (CookieSessionConfig.asSessionConfig { cookie_name := "session", expiration := 0 })
        100).expires = MIN_DATETIME
    ∧ (SessionInner.new "abc" { expiration_duration := some 7 } 100).created
        < (SessionInner.new "abc" { expiration_duration := some 7 } 100).expires := by
  obtain ⟨h1, _, _, h4, h5⟩ := C9_new_fields "abc" { expiration_duration := some 7 } 100
  exact ⟨h1, (h5 7 rfl).1, h4 { cookie_name := "session", expiration := 0 } rfl,
    (h5 7 rfl).2 (by decide)⟩

/-- C6: update_time sets last_accessed to the current time (strictly
advancing it whenever the clock has moved past the stored value); with a
configured duration d it sets expires to the new last_accessed plus d
exactly, and with no duration it leaves expires unchanged. -/
theorem C6_update_time_spec (s : SessionInner) (now : DateTime) :
    (s.update_time now).last_accessed = now
    ∧ (s.last_accessed < now →
        s.last_accessed < (s.update_time now).last_accessed)
    ∧ (∀ d : Duration, s._config.expiration_duration = some d →
        (s.update_time now).expires = (s.update_time now).last_accessed + d)
    ∧ (s._config.expiration_duration = none →
        (s.update_time now).expires = s.expires) := by
  cases hc : s._config.expiration_duration with
  | none =>
    refine ⟨?_, ?_, ?_, ?_⟩
    · simp [SessionInner.update_time, hc]
    · intro h
      simpa [SessionInner.update_time, hc] using h
    · intro d hd
      exact Option.noConfusion hd
    · intro _
      simp [SessionInner.update_time, hc]
  | some d0 =>
    refine ⟨?_, ?_, ?_, ?_⟩
    · simp [SessionInner.update_time, hc]
    · intro h
      simpa [SessionInner.update_time, hc] using h
    · intro d hd
      obtain rfl : d0 = d := by injection hd
      simp [SessionInner.update_time, hc]
    · intro h
      exact Option.noConfusion h

/-- C6 witness: touching a session created at time 3 at time 7 advances
last_accessed from 3 to 7 and sets expires to 7 plus 50 under the
fifty-tick config; under the never config expires is unchanged. -/
theorem C6_update_time_witness :
    (sTouch.update_time 7).last_accessed = 7
    ∧ sTouch.last_accessed < (sTouch.update_time 7).last_accessed
    ∧ (sTouch.update_time 7).expires = (sTouch.update_time 7).last_accessed + 50
    ∧ (sTouchNever.update_time 7).expires = sTouchNever.expires := by
  obtain ⟨h1, h2, h3, _⟩ := C6_update_time_spec sTouch 7
  obtain ⟨_, _, _, h4⟩ := C6_update_time_spec sTouchNever 7
  exact ⟨h1, h2 (by decide), h3 50 rfl, h4 rfl⟩

/-- C7: insert followed by get_attribute at the same key and the stored
type returns the inserted value; at a different type it returns none; and
get_attribute at a key with no binding returns none — mismatch and
absence are indistinguishable and raise no error. -/
theorem C7_attribute_roundtrip (s : SessionInner) (key k2 : String)
    (T U : AttrTy) (v : AttrTy.interp T) (hTU : U ≠ T)
    (habs : attrLookup s.attributes k2 = none) :
    (s.insert key (AttrVal.mk T v)).get_attribute T key = some v
    ∧ (s.insert key (AttrVal.mk T v)).get_attribute U key = none
    ∧ s.get_attribute T k2 = none := by
  refine ⟨?_, ?_, ?_⟩
  · simp [SessionInner.get_attribute, SessionInner.insert, attrInsert, attrLookup,
      AttrVal.typeId_mk, AttrVal.downcast_ref_mk]
  · simp [SessionInner.get_attribute, SessionInner.insert, attrInsert, attrLookup,
      AttrVal.typeId_mk]
    intro hh
    exact absurd hh.symm hTU
  · simp [SessionInner.get_attribute, habs]

/-- C7 witness: the spec scenario — store the string alice under user,
read it back as a string, fail to read it as a u32, and fail to read an
unused key. -/
theorem C7_attribute_witness :
    ((SessionInner.new "abc" { expiration_duration := none } 0).insert "user"
        (AttrVal.mk AttrTy.tString "alice")).get_attribute AttrTy.tString "user"
      = some "alice"
    ∧ ((SessionInner.new "abc" { expiration_duration := none } 0).insert "user"
        (AttrVal.mk AttrTy.tString "alice")).get_attribute AttrTy.tU32 "user" = none
    ∧ (SessionInner.new "abc" { expiration_duration := none } 0).get_attribute
        AttrTy.tString "missing" = none :=
  C7_attribute_roundtrip (SessionInner.new "abc" { expiration_duration := none } 0)
    "user" "missing" AttrTy.tString AttrTy.tU32 "alice" (by decide) rfl

/-- C1: the claim says remove_expired removes exactly the expired records,
leaves every non-expired record retrievable, and returns the number
removed.  The code refutes this: retain keeps the entries whose closure
returned true, and the closure returns true exactly for the expired
records, so on a map with one expired and one live record the sweep keeps
the expired one, removes the live one, and returns the count of expired
records it kept. -/
theorem C1_remove_expired_inverted :
    innerA.is_expired 100 = true
    ∧ innerB.is_expired 100 = false
    ∧ demoMap.remove_expired demoHeap 100
        = Except.ok (1, { mapPoisoned := false, sessions := [("a", 0)] }) :=
  ⟨rfl, rfl, rfl⟩

/-- C3 counterexample: with id a present and the mutex of its record
poisoned, SessionStore::get propagates no fault and fabricates an absent
result, and remove_expired silently drops the record without counting
it. -/
theorem C3_poisoned_record_counterexample :
    lookupKV poisonRecMap.sessions "a" = some 0
    ∧ SessionStore.get poisonRecMap poisonHeap "a" 100 = Except.ok none
    ∧ poisonRecMap.remove_expired poisonHeap 100
        = Except.ok (0, { mapPoisoned := false, sessions := [] }) :=
  ⟨rfl, rfl, rfl⟩

/-- C3 amended: when the collection-level lock is poisoned, every
LocalSessionMap operation propagates a non-recoverable panic to its
immediate caller; but when a record's own mutex is poisoned, no fault is
propagated: SessionStore::get silently returns none for that id, and
remove_expired silently drops every record whose lock is poisoned without
counting it. -/
theorem C3_lock_fault_behaviour (m : LocalSessionMap) (h : Heap) (id : String)
    (s : SessionData) (now : DateTime) (hp : m.mapPoisoned = true) :
    (m.list = Except.error Panic.panicked
      ∧ m.get id = Except.error Panic.panicked
      ∧ m.insert id s = Except.error Panic.panicked
      ∧ m.remove id = Except.error Panic.panicked
      ∧ m.remove_expired h now = Except.error Panic.panicked
      ∧ m.clear h = Except.error Panic.panicked)
    ∧ (∀ (m2 : LocalSessionMap) (h2 : Heap) (d : SessionData),
        m2.mapPoisoned = false → lookupKV m2.sessions id = some d →
        heapLock h2 d = none →
        SessionStore.get m2 h2 id now = Except.ok none)
    ∧ (∀ (m2 : LocalSessionMap) (h2 : Heap),
        m2.mapPoisoned = false →
        (∀ kv ∈ m2.sessions, heapLock h2 kv.2 = none) →
        m2.remove_expired h2 now = Except.ok (0, { m2 with sessions := [] })) := by
  refine ⟨⟨?_, ?_, ?_, ?_, ?_, ?_⟩, ?_, ?_⟩
  · simp [LocalSessionMap.list, hp]
  · simp [LocalSessionMap.get, hp]
  · simp [LocalSessionMap.insert, hp]
  · simp [LocalSessionMap.remove, hp]
  · simp [LocalSessionMap.remove_expired, hp]
  · simp [LocalSessionMap.clear, hp]
  · intro m2 h2 d hm2 hd hl
    have hget : LocalSessionMap.get m2 id = Except.ok (some d) := by
      simp [LocalSessionMap.get, hm2, hd]
    simp [SessionStore.get, hget, hl]
  · intro m2 h2 hm2 hall
    have hfil : m2.sessions.filter (remove_expired_keep h2 now) = [] := by
      rw [List.filter_eq_nil_iff]
      intro kv hkv
      simp [remove_expired_keep, hall kv hkv]
    simp [LocalSessionMap.remove_expired, hm2, hfil]

/-- C3 witness: the amended behaviour at concrete inputs — a poisoned
collection lock makes get and clear panic, while a poisoned record mutex
makes the facade's get fabricate none and the sweep drop the record. -/
theorem C3_lock_fault_witness :
    (poisonMap.get "a" = Except.error Panic.panicked
      ∧ poisonMap.clear poisonHeap = Except.error Panic.panicked)
    ∧ SessionStore.get poisonRecMap poisonHeap "a" 100 = Except.ok none
    ∧ poisonRecMap.remove_expired poisonHeap 100
        = Except.ok (0, { mapPoisoned := false, sessions := [] }) := by
  obtain ⟨hfst, hsnd, hthd⟩ := C3_lock_fault_behaviour poisonMap poisonHeap "a" 0 100 rfl
  refine ⟨⟨hfst.2.1, hfst.2.2.2.2.2⟩, hsnd poisonRecMap poisonHeap 0 rfl rfl rfl, ?_⟩
  have hall : ∀ kv ∈ poisonRecMap.sessions, heapLock poisonHeap kv.2 = none := by
    intro kv hkv
    have heq : kv = ("a", 0) := by simpa [poisonRecMap] using hkv
    subst heq
    rfl
  exact hthd poisonRecMap poisonHeap rfl hall

/-- C4: the facade's get returns none when the stored record is expired at
lookup time and the handle when it is present and live, while the backend
map's get returns the stored handle whenever the id is present, with no
expiration check. -/
theorem C4_store_get_vs_map_get (m : LocalSessionMap) (h : Heap) (id : String)
    (now : DateTime) (d : SessionData) (inner : SessionInner)
    (hm : m.mapPoisoned = false)
    (hd : lookupKV m.sessions id = some d)
    (hl : heapLock h d = some inner) :
    m.get id = Except.ok (some d)
    ∧ (inner.is_expired now = true → SessionStore.get m h id now = Except.ok none)
    ∧ (inner.is_expired now = false →
        SessionStore.get m h id now = Except.ok (some d)) := by
  have hget : LocalSessionMap.get m id = Except.ok (some d) := by
    simp [LocalSessionMap.get, hm, hd]
  refine ⟨hget, ?_, ?_⟩
  · intro he
    simp [SessionStore.get, hget, hl, he]
  · intro he
    simp [SessionStore.get, hget, hl, he]

/-- C4 witness: on the demo map at time 100 the backend returns both the
expired handle at a and the live handle at b, while the facade returns
none for a and the handle for b. -/
theorem C4_store_get_witness :
    demoMap.get "a" = Except.ok (some 0)
    ∧ demoMap.get "b" = Except.ok (some 1)
    ∧ SessionStore.get demoMap demoHeap "a" 100 = Except.ok none
    ∧ SessionStore.get demoMap demoHeap "b" 100 = Except.ok (some 1) := by
  obtain ⟨ha1, ha2, _⟩ :=
    C4_store_get_vs_map_get demoMap demoHeap "a" 100 0 innerA rfl rfl rfl
  obtain ⟨hb1, _, hb3⟩ :=
    C4_store_get_vs_map_get demoMap demoHeap "b" 100 1 innerB rfl rfl rfl
  exact ⟨ha1, hb1, ha2 rfl, hb3 rfl⟩

/-- Helper for the clear claim: running the retain loop of clear over a
list of entries whose cells are healthy succeeds; afterwards every
processed address holds an invalidated record, and an address that was
already invalidated stays so. -/
theorem clearLoop_spec (l : List (String × SessionData)) :
    ∀ h : Heap,
      (∀ kv ∈ l, ∃ cell, h kv.2 = some cell ∧ cell.poisoned = false) →
      ∃ h2, clearLoop l h = Except.ok h2
        ∧ (∀ p, invalidatedAt h p → invalidatedAt h2 p)
        ∧ (∀ kv ∈ l, invalidatedAt h2 kv.2) := by
  induction l with
  | nil =>
    intro h _
    exact ⟨h, rfl, fun p hp => hp, by simp⟩
  | cons kv rest ih =>
    intro h hcells
    obtain ⟨cell, hcell, hpois⟩ := hcells kv (by simp)
    have hstep : clearLoop (kv :: rest) h
        = clearLoop rest (heapSet h kv.2 { cell with inner := cell.inner.invalidate }) := by
      simp [clearLoop, hcell, hpois]
    have hrest : ∀ kv2 ∈ rest,
        ∃ cell2, heapSet h kv.2 { cell with inner := cell.inner.invalidate } kv2.2
            = some cell2 ∧ cell2.poisoned = false := by
      intro kv2 hkv2
      by_cases hq : kv2.2 = kv.2
      · exact ⟨{ cell with inner := cell.inner.invalidate }, by simp [heapSet, hq], hpois⟩
      · obtain ⟨c2, hc2, hp2⟩ := hcells kv2 (by simp [hkv2])
        refine ⟨c2, ?_, hp2⟩
        simpa [heapSet, hq] using hc2
    obtain ⟨h2, hok, hpres, hall⟩ :=
      ih (heapSet h kv.2 { cell with inner := cell.inner.invalidate }) hrest
    have hstepInv : invalidatedAt
        (heapSet h kv.2 { cell with inner := cell.inner.invalidate }) kv.2 :=
      ⟨{ cell with inner := cell.inner.invalidate }, by simp [heapSet], hpois, rfl⟩
    refine ⟨h2, by rw [hstep]; exact hok, ?_, ?_⟩
    · intro p hp
      apply hpres
      by_cases hq : p = kv.2
      · subst hq
        exact hstepInv
      · obtain ⟨c2, hc2, hp2, he2⟩ := hp
        refine ⟨c2, ?_, hp2, he2⟩
        simpa [heapSet, hq] using hc2
    · intro kv2 hkv2
      rcases List.mem_cons.mp hkv2 with h1 | h1
      · subst h1
        exact hpres kv2.2 hstepInv
      · exact hall kv2 h1

/-- C5: clear invalidates every stored record through its handle before
removing it and leaves the map empty; afterwards any handle a caller
retained from before clear reports is_expired true when accessed at any
time at or past the record's creation. -/
theorem C5_clear_invalidates_all (m : LocalSessionMap) (h : Heap)
    (hm : m.mapPoisoned = false)
    (hcells : ∀ kv ∈ m.sessions, ∃ cell, h kv.2 = some cell ∧ cell.poisoned = false) :
    ∃ h2, m.clear h = Except.ok ({ m with sessions := [] }, h2)
      ∧ ∀ kv ∈ m.sessions, ∃ cell, h2 kv.2 = some cell ∧ cell.poisoned = false
          ∧ cell.inner.expires = cell.inner.created
          ∧ ∀ now : DateTime, cell.inner.created ≤ now →
              cell.inner.is_expired now = true := by
  obtain ⟨h2, hok, _, hall⟩ := clearLoop_spec m.sessions h hcells
  refine ⟨h2, ?_, ?_⟩
  · simp [LocalSessionMap.clear, hm, hok]
  · intro kv hkv
    obtain ⟨cell, hc, hp, he⟩ := hall kv hkv
    refine ⟨cell, hc, hp, he, ?_⟩
    intro now hnow
    simp [SessionInner.is_expired, he, hnow]

/-- C5 witness: clearing the demo map empties it and leaves both retained
handles pointing at invalidated records that report themselves expired. -/
theorem C5_clear_witness :
    ∃ h2, demoMap.clear demoHeap
        = Except.ok ({ mapPoisoned := false, sessions := [] }, h2)
      ∧ ∀ kv ∈ demoMap.sessions, ∃ cell, h2 kv.2 = some cell ∧ cell.poisoned = false
          ∧ cell.inner.expires = cell.inner.created
          ∧ ∀ now : DateTime, cell.inner.created ≤ now →
              cell.inner.is_expired now = true := by
  have hcells : ∀ kv ∈ demoMap.sessions,
      ∃ cell, demoHeap kv.2 = some cell ∧ cell.poisoned = false := by
    intro kv hkv
    have heq : kv = ("a", 0) ∨ kv = ("b", 1) := by simpa [demoMap] using hkv
    rcases heq with rfl | rfl
    · exact ⟨{ poisoned := false, inner := innerA }, rfl, rfl⟩
    · exact ⟨{ poisoned := false, inner := innerB }, rfl, rfl⟩
  exact C5_clear_invalidates_all demoMap demoHeap rfl hcells

end RustSessions
